import Mathlib

/-!
Verification of the schedex on/off scheduler (src/index.js).

Shallow embedding of the Node-RED `schedex` node: a two-event (on/off) daily
scheduler.  Times are modelled on a linear local-time axis as integer
milliseconds since an epoch whose day 0 is a Thursday (so `weekday` matches
moment.js's en-locale `weekday()`, 0 = Sunday … 6 = Saturday).  This mirrors
the spec's non-goal "time zone conversion (all computation is local-time
self-consistent)".

External collaborators are parameters:
* the wall clock `moment()` is the parameter `now` (the source calls
  `moment()` twice in `schedule`; both calls are modelled by the same `now`);
* `Math.random()` is the parameter `r : ℚ` with `0 ≤ r < 1`;
* `SunCalc.getTimes(...)[key]` is the parameter `solar : String → Option Int`.

`setTimeout`/`clearTimeout` are modelled by the `timeout : Option Int` field
(the armed delay, or `none` when no timer is armed).  moment.js internally
stores an integral number of milliseconds (a JS `Date`), so adding a
fractional number of minutes truncates to whole milliseconds; `addMinutes`
uses `Rat.floor` accordingly.
-/

namespace Schedex

def msPerSecond : Int := 1000
def msPerMinute : Int := 60000
def msPerHour : Int := 3600000
def msPerDay : Int := 86400000

/-- Hour-of-day field of a moment, `moment.hour()`. -/
def hourOf (t : Int) : Int := t % msPerDay / msPerHour

/-- Minute-of-hour field of a moment, `moment.minute()`. -/
def minuteOf (t : Int) : Int := t % msPerHour / msPerMinute

/-- Second-of-minute field of a moment, `moment.second()`. -/
def secondOf (t : Int) : Int := t % msPerMinute / msPerSecond

/-- Sub-second (millisecond) field of a moment. -/
def msOf (t : Int) : Int := t % msPerSecond

/-- Midnight at the start of the moment's local day. -/
def dayStart (t : Int) : Int := t - t % msPerDay

/-- Model of `moment.hour(h)`: replace the hour-of-day field.  moment.js lets values
outside 0–23 bubble into the date, which the linear arithmetic does
automatically. -/
def setHour (h : Int) (t : Int) : Int := t - hourOf t * msPerHour + h * msPerHour

/-- Model of `moment.minute(m)`: replace the minute-of-hour field (overflow bubbles). -/
def setMinute (m : Int) (t : Int) : Int := t - minuteOf t * msPerMinute + m * msPerMinute

/-- Model of `moment.seconds(0)`: zero the seconds field.  The millisecond field is
not touched by this call in moment.js. -/
def zeroSeconds (t : Int) : Int := t - secondOf t * msPerSecond

/-- Model of `moment.weekday()` in the en locale: 0 = Sunday … 6 = Saturday.  Day 0 of
the timeline is a Thursday (1970-01-01), hence the `+ 4`. -/
def weekday (t : Int) : Fin 7 :=
  ⟨((t / msPerDay + 4) % 7).toNat, by omega⟩

/-- Model of `moment.add(x, 'minutes')`: moment.js turns the (possibly fractional)
minute count into milliseconds and the backing `Date` keeps whole
milliseconds. -/
def addMinutes (x : ℚ) (t : Int) : Int := t + Rat.floor (x * 60000)

/-- Model of `moment.format('YYYY-MM-DD HH:mm')`.  Status-display rendering is
peripheral (spec §1); only *whether* a status can be built matters to the
claims, so any injective rendering suffices. -/
def fmtMoment (t : Int) : String := toString t

/-! ### The time-spec regex `(\d+):(\d+)`

`schedule` runs `new RegExp(/(\d+):(\d+)/).exec(event.time)`: an unanchored,
leftmost-match search.  At a given start position the first `\d+` is a
maximal digit run (backtracking cannot help, since a shorter run leaves a
digit where `:` is required), which must be followed by `:` and at least one
digit. -/

/-- One attempt of `(\d+):(\d+)` anchored at the head of `l`; returns the two
capture groups. -/
def matchAt (l : List Char) : Option (List Char × List Char) :=
  let d1 := l.takeWhile Char.isDigit
  if d1.isEmpty then none
  else
    match l.dropWhile Char.isDigit with
    | b :: rest =>
      if b = ':' then
        let d2 := rest.takeWhile Char.isDigit
        if d2.isEmpty then none else some (d1, d2)
      else none
    | [] => none

/-- Embedding of `regex.exec`: try every start position from the left. -/
def execTime : List Char → Option (List Char × List Char)
  | [] => none
  | c :: cs =>
    match matchAt (c :: cs) with
    | some m => some m
    | none => execTime cs

/-- Digit string to number, as moment's `hour()`/`minute()` setters coerce
their string argument (decimal). -/
def digitsToNat (l : List Char) : Nat :=
  l.foldl (fun a c => 10 * a + (c.toNat - 48)) 0

/-- Lines 132–142 of `schedule`: if the regex matches, set hour then minute
on a fresh `moment()`; otherwise look the spec up in the SunCalc table.
`none` means resolution failed. -/
def resolveMoment (solar : String → Option Int) (now : Int) (timespec : String) : Option Int :=
  match execTime timespec.data with
  | some (hs, ms) => some (setMinute ((digitsToNat ms : Nat) : Int) (setHour ((digitsToNat hs : Nat) : Int) now))
  | none => solar timespec

/-! ### Node state -/

/-- One of the two event records built by `setupEvent` plus its mutable
scheduling state (`event.moment`, `event.timeout`). -/
structure Event where
  name : String
  shape : String
  time : String
  topic : String
  payload : String
  offset : Int
  randomoffset : Bool
  moment : Option Int := none
  timeout : Option Int := none
deriving DecidableEq

inductive Fill where
  | red | green | blue | yellow | grey
deriving DecidableEq

/-- A `node.status({fill, shape, text})` call. -/
structure Status where
  fill : Fill
  shape : String
  text : String
deriving DecidableEq

/-- A `node.send({topic, payload})` call. -/
structure OutMsg where
  topic : String
  payload : String
deriving DecidableEq

/-- The per-node state: the `config.suspended` flag, the weekday mask
`[sun, mon, tue, wed, thu, fri, sat]`, and the two events. -/
structure NodeState where
  suspended : Bool
  weekdays : Fin 7 → Bool
  onEvent : Event
  offEvent : Event
deriving DecidableEq

/-- The `Math.random()` draw applied to the offset (line 145–151):
`offset * random()` when `randomoffset`, else `offset` itself. -/
def adjustment (offset : Int) (randomoffset : Bool) (r : ℚ) : ℚ :=
  if randomoffset then (offset : ℚ) * r else (offset : ℚ)

/-- Line 167: `node.status({fill:'red', shape:'dot', text:'Invalid time: …'})`. -/
def invalidStatus (time : String) : Status :=
  ⟨.red, "dot", "Invalid time: " ++ time⟩

/-- The weekday-filter loop of `schedule` (lines 154–156):
`while (!weekdays[event.moment.weekday()]) event.moment.add(1, 'day')`.
The source loop is unbounded; `fuel` bounds the embedding and `none` marks
divergence within the fuel.  Since `weekday` cycles with period 7, fuel 7 is
exact: the source loop terminates iff this returns `some`. -/
def weekdayLoop (weekdays : Fin 7 → Bool) : Nat → Int → Option Int
  | 0, t => if weekdays (weekday t) then some t else none
  | fuel + 1, t =>
    if weekdays (weekday t) then some t else weekdayLoop weekdays fuel (t + msPerDay)

/-- Embedding of `schedule(event, isInitial)` (lines 130–169).  Returns the updated event
and the status it published, or `none` when the weekday loop diverges.
Mirrors the source faithfully, in particular:
* on resolution failure `event.moment` is *not* assigned, so a previously
  computed (stale) moment makes `if (event.moment)` take the success path;
* `seconds(0)`, the offset and the weekday loop are applied to whatever
  moment survived;
* the day rollover (lines 158–160) fires when `!isInitial` or when `now` is
  strictly after the candidate, and does *not* re-run the weekday loop;
* the success path clears any previous timer and arms a new one with
  `delay = moment.diff(now)`. -/
def schedule (weekdays : Fin 7 → Bool) (now : Int) (r : ℚ) (solar : String → Option Int)
    (ev : Event) (isInitial : Bool) : Option (Event × Option Status) :=
  match (resolveMoment solar now ev.time).or ev.moment with
  | none => some (ev, some (invalidStatus ev.time))
  | some m0 =>
    let m1 := zeroSeconds m0
    let m2 := if ev.offset ≠ 0 then addMinutes (adjustment ev.offset ev.randomoffset r) m1 else m1
    match weekdayLoop weekdays 7 m2 with
    | none => none
    | some m3 =>
      let m4 := if !isInitial || decide (m3 < now) then m3 + msPerDay else m3
      some ({ ev with moment := some m4, timeout := some (m4 - now) }, none)

/-- Line 174's status text; the parenthetical appears exactly when no weekday
is selected (`weekdays.indexOf(true) == -1`). -/
def suspendStatus (weekdays : Fin 7 → Bool) : Status :=
  ⟨.grey, "dot",
    "Scheduling suspended " ++
      (if ∀ i, weekdays i = false then "(no weekdays selected) " else "") ++
      "- manual mode only"⟩

/-- Embedding of `suspend()` (lines 171–175): clear both timers, publish the grey status. -/
def suspend (st : NodeState) : NodeState × Status :=
  ({ st with onEvent := { st.onEvent with timeout := none },
             offEvent := { st.offEvent with timeout := none } },
   suspendStatus st.weekdays)

/-- Embedding of `send(event, manual)` (lines 121–128).  Emits `{topic, payload}` and then
builds the status text; when the node is not suspended the text interpolates
`event.inverse.moment.format(fmt)`, which throws a `TypeError` when the
inverse moment is undefined — modelled by `none`. -/
def send (suspended : Bool) (ev inv : Event) (manual : Bool) : Option (OutMsg × Status) :=
  let tail : Option String :=
    if suspended then some " - scheduling suspended"
    else inv.moment.map (fun m => " until " ++ fmtMoment m)
  tail.map (fun tl =>
    (⟨ev.topic, ev.payload⟩,
     ⟨if manual then .blue else .green, ev.shape,
      ev.name ++ (if manual then " manual" else " auto") ++ tl⟩))

/-- Embedding of `resume()` (lines 177–184): schedule both events as initial, then build
the yellow status, which formats *both* computed moments (line 180 throws on
an undefined `events.on.moment`; line 181–182 format both, throwing on an
undefined moment of either event). -/
def resume (now : Int) (rOn rOff : ℚ) (solar : String → Option Int) (st : NodeState) :
    Option (NodeState × Status) := do
  let (on1, _) ← schedule st.weekdays now rOn solar st.onEvent true
  let (off1, _) ← schedule st.weekdays now rOff solar st.offEvent true
  let onM ← on1.moment
  let offM ← off1.moment
  let p := if onM < offM then (on1.name, onM, off1.name, offM) else (off1.name, offM, on1.name, onM)
  some ({ st with onEvent := on1, offEvent := off1 },
    ⟨.yellow, "dot", p.1 ++ " " ++ fmtMoment p.2.1 ++ ", " ++ p.2.2.1 ++ " " ++ fmtMoment p.2.2.2⟩)

/-- Embedding of `bootstrap()` (lines 186–192): suspend when the flag is set *or* no
weekday is enabled, else resume. -/
def bootstrap (now : Int) (rOn rOff : ℚ) (solar : String → Option Int) (st : NodeState) :
    Option (NodeState × Status) :=
  if st.suspended || decide (∀ i, st.weekdays i = false) then some (suspend st)
  else resume now rOn rOff solar st

/-! ### The input handler (lines 50–101)

A reconfiguration payload is modelled as the structured record the handler
probes with `hasOwnProperty` (the free-text command form applies exactly the
same per-field updates after regex extraction).  Values carry the types the
`eachProp` constructors coerce to (String / Number / boolean). -/

structure Patch where
  suspended : Option Bool := none
  ontime : Option String := none
  ontopic : Option String := none
  onpayload : Option String := none
  onoffset : Option Int := none
  onrandomoffset : Option Bool := none
  offtime : Option String := none
  offtopic : Option String := none
  offpayload : Option String := none
  offoffset : Option Int := none
  offrandomoffset : Option Bool := none
deriving DecidableEq

/-- One `hasOwnProperty` probe: when the property is present, overwrite the
field, mark the message handled, and or-in `previous !== next` into
`requiresBootstrap`. -/
def applyField {α : Type} [DecidableEq α] (v : Option α) (cur : α) (acc : Bool × Bool) :
    α × Bool × Bool :=
  match v with
  | none => (cur, acc)
  | some x => (x, true, acc.2 || decide (cur ≠ x))

/-- The field sweep of the handler: `suspended` first, then `eachProp` over
the on event's time/topic/payload/offset/randomoffset, then the off event's.
Returns the updated state, `handled`, and `requiresBootstrap`. -/
def applyPatch (p : Patch) (st : NodeState) : NodeState × Bool × Bool :=
  let (susp, a1) := applyField p.suspended st.suspended (false, false)
  let (t1, a2) := applyField p.ontime st.onEvent.time a1
  let (tp1, a3) := applyField p.ontopic st.onEvent.topic a2
  let (pl1, a4) := applyField p.onpayload st.onEvent.payload a3
  let (of1, a5) := applyField p.onoffset st.onEvent.offset a4
  let (ro1, a6) := applyField p.onrandomoffset st.onEvent.randomoffset a5
  let (t2, a7) := applyField p.offtime st.offEvent.time a6
  let (tp2, a8) := applyField p.offtopic st.offEvent.topic a7
  let (pl2, a9) := applyField p.offpayload st.offEvent.payload a8
  let (of2, a10) := applyField p.offoffset st.offEvent.offset a9
  let (ro2, a11) := applyField p.offrandomoffset st.offEvent.randomoffset a10
  ({ st with
      suspended := susp,
      onEvent := { st.onEvent with
        time := t1, topic := tp1, payload := pl1, offset := of1, randomoffset := ro1 },
      offEvent := { st.offEvent with
        time := t2, topic := tp2, payload := pl2, offset := of2, randomoffset := ro2 } },
   a11)

/-- An inbound `msg`: the literal `'on'` / `'off'` manual-fire payloads, or a
structured reconfiguration record. -/
inductive InMsg where
  | onCmd
  | offCmd
  | patch (p : Patch)

/-- Observable outcome of one `node.on('input')` invocation.  `rebootstraps`
counts how many times the handler called `bootstrap()` (the transition
`bootstrap` performs is modelled above); `none` overall means the handler
threw (the `send` status crash). -/
structure InOutcome where
  state : NodeState
  emitted : List OutMsg
  status : Option Status
  rebootstraps : Nat
deriving DecidableEq

/-- The input handler (lines 50–101) on the modelled payloads. -/
def onInput (st : NodeState) (msg : InMsg) : Option InOutcome :=
  match msg with
  | .onCmd => (send st.suspended st.onEvent st.offEvent true).map
      (fun ms => ⟨st, [ms.1], some ms.2, 0⟩)
  | .offCmd => (send st.suspended st.offEvent st.onEvent true).map
      (fun ms => ⟨st, [ms.1], some ms.2, 0⟩)
  | .patch p =>
    let r := applyPatch p st
    if !r.2.1 then some ⟨r.1, [], some ⟨.red, "dot", "Unsupported input"⟩, 0⟩
    else some ⟨r.1, [], none, if r.2.2 then 1 else 0⟩

/-! ### Derived quantities used by the theorems -/

/-- The net millisecond shift the offset stage applies to the resolved
moment: zero when `event.offset` is falsy, else the (truncated) adjustment in
milliseconds. -/
def appliedAdjMs (offset : Int) (randomoffset : Bool) (r : ℚ) : Int :=
  if offset ≠ 0 then Rat.floor (adjustment offset randomoffset r * 60000) else 0

/-- A reconfigurable value: the three types the `eachProp` constructors
coerce to. -/
inductive FieldVal where
  | s (v : String)
  | n (v : Int)
  | b (v : Bool)
deriving DecidableEq

/-- The reconfigurable fields: `suspended` plus time/topic/payload/offset/
randomoffset of each event. -/
inductive FieldId where
  | suspended | ontime | ontopic | onpayload | onoffset | onrandomoffset
  | offtime | offtopic | offpayload | offoffset | offrandomoffset
deriving DecidableEq

/-- Current value of a reconfigurable field. -/
def readField (st : NodeState) : FieldId → FieldVal
  | .suspended => .b st.suspended
  | .ontime => .s st.onEvent.time
  | .ontopic => .s st.onEvent.topic
  | .onpayload => .s st.onEvent.payload
  | .onoffset => .n st.onEvent.offset
  | .onrandomoffset => .b st.onEvent.randomoffset
  | .offtime => .s st.offEvent.time
  | .offtopic => .s st.offEvent.topic
  | .offpayload => .s st.offEvent.payload
  | .offoffset => .n st.offEvent.offset
  | .offrandomoffset => .b st.offEvent.randomoffset

/-- The reconfiguration record that sets exactly one field. -/
def mkPatch : FieldId → FieldVal → Patch
  | .suspended, .b v => { suspended := some v }
  | .ontime, .s v => { ontime := some v }
  | .ontopic, .s v => { ontopic := some v }
  | .onpayload, .s v => { onpayload := some v }
  | .onoffset, .n v => { onoffset := some v }
  | .onrandomoffset, .b v => { onrandomoffset := some v }
  | .offtime, .s v => { offtime := some v }
  | .offtopic, .s v => { offtopic := some v }
  | .offpayload, .s v => { offpayload := some v }
  | .offoffset, .n v => { offoffset := some v }
  | .offrandomoffset, .b v => { offrandomoffset := some v }
  | _, _ => {}

/-- The value has the type the field's `typeConstructor` coerces to. -/
def valTypeOk : FieldId → FieldVal → Prop
  | .suspended, .b _ => True
  | .ontime, .s _ => True
  | .ontopic, .s _ => True
  | .onpayload, .s _ => True
  | .onoffset, .n _ => True
  | .onrandomoffset, .b _ => True
  | .offtime, .s _ => True
  | .offtopic, .s _ => True
  | .offpayload, .s _ => True
  | .offoffset, .n _ => True
  | .offrandomoffset, .b _ => True
  | _, _ => False

/-! ### Concrete inputs used by witnesses and counterexamples -/

/-- Characterization of the strings the time regex accepts: the regex
`(\d+):(\d+)` finds a match somewhere in `l` exactly when `l` contains three
consecutive characters digit, `':'`, digit. -/
def hasTimePattern : List Char → Bool
  | a :: b :: c :: rest => (a.isDigit && b == ':' && c.isDigit) || hasTimePattern (b :: c :: rest)
  | _ => false

/-- Modelled from the spec's words, for comparison with the source's
acceptance test: "If `spec` matches `HH:MM` (hours 0–23, minutes 0–59)" —
the whole string is a two-digit hour 00–23, `':'`, two-digit minute 00–59. -/
def specClockAccepts (s : String) : Bool :=
  match s.data with
  | [h1, h2, ':', m1, m2] =>
    h1.isDigit && h2.isDigit && m1.isDigit && m2.isDigit &&
      decide (10 * (h1.toNat - 48) + (h2.toNat - 48) ≤ 23) &&
      decide (10 * (m1.toNat - 48) + (m2.toNat - 48) ≤ 59)
  | _ => false

/-- Weekday mask enabling only Monday (index 1). -/
def onlyMonday : Fin 7 → Bool := fun i => i.val == 1

/-- Weekday mask enabling every day. -/
def allDays : Fin 7 → Bool := fun _ => true

/-- Weekday mask enabling no day. -/
def noDays : Fin 7 → Bool := fun _ => false

/-- A solar table with no entries (SunCalc returns no value for the key). -/
def noSolar : String → Option Int := fun _ => none

/-- A fresh ON event with clock spec 08:00 and no offset. -/
def evA : Event :=
  { name := "ON", shape := "dot", time := "08:00", topic := "t1", payload := "p1",
    offset := 0, randomoffset := false }

/-- An event whose spec resolves to nothing (`junk` has no digit:digit and no
solar entry) but that carries a stale moment from an earlier pass
(Monday 10:00 = 381600000) and an armed timer. -/
def evStale : Event :=
  { name := "ON", shape := "dot", time := "junk", topic := "t1", payload := "p1",
    offset := 0, randomoffset := false, moment := some 381600000, timeout := some 5 }

/-- A fresh event with an unresolvable spec and no prior moment. -/
def evBad : Event :=
  { name := "OFF", shape := "ring", time := "junk", topic := "t2", payload := "p2",
    offset := 0, randomoffset := false }

/-- State used for input-handler witnesses: active, both moments computed. -/
def stOk : NodeState :=
  { suspended := false, weekdays := allDays,
    onEvent := { evA with moment := some 374400000, timeout := some 3600000 },
    offEvent := { evA with
      name := "OFF", shape := "ring", time := "20:00", topic := "t2",
      payload := "p2", moment := some 417600000, timeout := some 46800000 } }

/-- State whose OFF event never resolved: not suspended, `offEvent.moment`
undefined. -/
def stBad : NodeState :=
  { suspended := false, weekdays := allDays,
    onEvent := { evA with moment := some 374400000, timeout := some 3600000 },
    offEvent := evBad }

/-- All-false mask, not suspended: bootstrap must still suspend. -/
def stNoDays : NodeState :=
  { suspended := false, weekdays := noDays, onEvent := evA, offEvent := evBad }

/-! ### Helper lemmas: the local-time field arithmetic -/

theorem field_decomp (h m t : Int) :
    zeroSeconds (setMinute m (setHour h t)) =
      dayStart t + h * msPerHour + m * msPerMinute + msOf t := by
  simp only [zeroSeconds, setMinute, setHour, dayStart, secondOf, minuteOf, hourOf, msOf,
    msPerDay, msPerHour, msPerMinute, msPerSecond]
  omega

theorem secondOf_zeroSeconds (t : Int) : secondOf (zeroSeconds t) = 0 := by
  simp only [zeroSeconds, secondOf, msPerMinute, msPerSecond]
  omega

theorem msOf_zeroSeconds_set (h m t : Int) :
    msOf (zeroSeconds (setMinute m (setHour h t))) = msOf t := by
  rw [field_decomp]
  simp only [dayStart, msOf, msPerHour, msPerMinute, msPerDay, msPerSecond]
  omega

theorem weekday_add_day (t : Int) : (weekday (t + msPerDay)).val = ((weekday t).val + 1) % 7 := by
  simp only [weekday, msPerDay]
  omega

theorem weekday_add_days (t : Int) (j : ℕ) :
    (weekday (t + j * msPerDay)).val = ((weekday t).val + j) % 7 := by
  induction j generalizing t with
  | zero =>
    have := (weekday t).isLt
    simp only [Nat.cast_zero, zero_mul, add_zero, Nat.add_zero]
    omega
  | succ k ih =>
    have h1 : t + ((k + 1 : ℕ) : ℤ) * msPerDay = (t + msPerDay) + (k : ℤ) * msPerDay := by
      push_cast; ring
    have h2 := (weekday t).isLt
    rw [h1, ih, weekday_add_day]
    omega

/-! ### Helper lemmas: the weekday-filter loop -/

/-- If some day reachable in `j ≤ fuel` advances is enabled, the loop halts
at the *first* enabled day, after at most `j` advances. -/
theorem weekdayLoop_first (mask : Fin 7 → Bool) (fuel : ℕ) :
    ∀ (t : Int) (j : ℕ), j ≤ fuel → mask (weekday (t + j * msPerDay)) = true →
      ∃ (t' : Int) (k : ℕ), weekdayLoop mask fuel t = some t' ∧
        t' = t + k * msPerDay ∧ k ≤ j ∧ mask (weekday t') = true := by
  induction fuel with
  | zero =>
    intro t j hj hm
    have hj0 : j = 0 := by omega
    subst hj0
    have hm' : mask (weekday t) = true := by simpa using hm
    exact ⟨t, 0, by simp [weekdayLoop, hm'], by simp, le_refl 0, hm'⟩
  | succ fuel ih =>
    intro t j hj hm
    by_cases h0 : mask (weekday t) = true
    · exact ⟨t, 0, by simp [weekdayLoop, h0], by simp, Nat.zero_le j, h0⟩
    · cases j with
      | zero => exact absurd (by simpa using hm) h0
      | succ j' =>
        have h1 : t + ((j' + 1 : ℕ) : ℤ) * msPerDay = (t + msPerDay) + (j' : ℤ) * msPerDay := by
          push_cast; ring
        obtain ⟨t', k, hloop, htk, hkj, hmk⟩ :=
          ih (t + msPerDay) j' (by omega) (by rw [← h1]; exact hm)
        refine ⟨t', k + 1, ?_, by subst htk; push_cast; ring, by omega, hmk⟩
        simp [weekdayLoop, h0, hloop]

/-- With at least one enabled weekday, an enabled day is reachable within 6
day-advances from any start. -/
theorem mask_reachable (mask : Fin 7 → Bool) (t : Int) (hm : ∃ i, mask i = true) :
    ∃ j : ℕ, j ≤ 6 ∧ mask (weekday (t + j * msPerDay)) = true := by
  obtain ⟨i, hi⟩ := hm
  refine ⟨(i.val + 7 - (weekday t).val) % 7, by omega, ?_⟩
  have h2 : weekday (t + ((i.val + 7 - (weekday t).val) % 7 : ℕ) * msPerDay) = i := by
    apply Fin.ext
    rw [weekday_add_days]
    have ha := (weekday t).isLt
    have hb := i.isLt
    omega
  rw [h2]; exact hi

/-! ### Helper lemmas: the offset stage -/

theorem ratFloor_eq (q : ℚ) : Rat.floor q = ⌊q⌋ :=
  (Rat.floor_def' q).trans Rat.floor_def.symm

theorem appliedAdjMs_det (offset : Int) (r : ℚ) :
    appliedAdjMs offset false r = offset * 60000 := by
  simp only [appliedAdjMs, adjustment, Bool.false_eq_true, if_false]
  split
  · have hc : ((offset * 60000 : ℤ) : ℚ) = (offset : ℚ) * 60000 := by push_cast; ring
    rw [ratFloor_eq, ← hc, Int.floor_intCast]
  · rename_i hoff
    have : offset = 0 := by omega
    omega

theorem offset_stage (offset : Int) (randomoffset : Bool) (r : ℚ) (m1 : Int) :
    (if offset ≠ 0 then addMinutes (adjustment offset randomoffset r) m1 else m1) =
      m1 + appliedAdjMs offset randomoffset r := by
  simp only [appliedAdjMs, addMinutes]
  split <;> simp

/-- Characterization of a `schedule` call whose spec is matched by the time
regex: with at least one enabled weekday it succeeds, and its computed moment
is the hour/minute resolution plus the offset adjustment plus whole days from
the weekday filter, plus the rollover day when `!isInitial` or the candidate
is in the past. -/
theorem schedule_clock (mask : Fin 7 → Bool) (now : Int) (r : ℚ) (solar : String → Option Int)
    (ev : Event) (isInitial : Bool) (hs ms : List Char)
    (hre : execTime ev.time.data = some (hs, ms))
    (hmask : ∃ i, mask i = true) :
    ∃ (m3 : Int) (k : ℕ),
      m3 = zeroSeconds (setMinute (digitsToNat ms) (setHour (digitsToNat hs) now)) +
             appliedAdjMs ev.offset ev.randomoffset r + k * msPerDay ∧
      k ≤ 6 ∧ mask (weekday m3) = true ∧
      schedule mask now r solar ev isInitial =
        some ({ ev with
                moment := some (if !isInitial || decide (m3 < now) then m3 + msPerDay else m3),
                timeout := some ((if !isInitial || decide (m3 < now) then m3 + msPerDay else m3) - now) },
              none) := by
  obtain ⟨j, hj6, hjm⟩ := mask_reachable mask
    (zeroSeconds (setMinute (digitsToNat ms) (setHour (digitsToNat hs) now)) +
      appliedAdjMs ev.offset ev.randomoffset r)
    hmask
  obtain ⟨t', k, hloop, htk, hkj, hmk⟩ := weekdayLoop_first mask 7
    (zeroSeconds (setMinute (digitsToNat ms) (setHour (digitsToNat hs) now)) +
      appliedAdjMs ev.offset ev.randomoffset r)
    j (by omega) hjm
  refine ⟨t', k, htk, by omega, hmk, ?_⟩
  simp only [schedule, resolveMoment, hre, Option.or, offset_stage, hloop]

/-! ### Helper lemmas: what the time regex accepts -/

theorem colon_not_digit : (':' : Char).isDigit = false := by decide

theorem matchAt_head_pattern (a c : Char) (r : List Char)
    (ha : a.isDigit = true) (hc : c.isDigit = true) :
    (matchAt (a :: ':' :: c :: r)).isSome = true := by
  simp [matchAt, List.takeWhile_cons, List.dropWhile_cons, ha, hc, colon_not_digit]

theorem matchAt_some_pattern : ∀ l, (matchAt l).isSome = true → hasTimePattern l = true := by
  intro l
  induction l with
  | nil => intro h; simp [matchAt] at h
  | cons a rest ih =>
    intro h
    by_cases ha : a.isDigit = true
    · cases rest with
      | nil => simp [matchAt, ha] at h
      | cons b r2 =>
        by_cases hb : b.isDigit = true
        · have hsame : (matchAt (b :: r2)).isSome = true := by
            rcases hd : r2.dropWhile Char.isDigit with _ | ⟨x, xs⟩
            · exfalso
              simp [matchAt, List.takeWhile_cons, List.dropWhile_cons, ha, hb, hd] at h
            · by_cases hx : x = ':'
              · subst hx
                by_cases he : (xs.takeWhile Char.isDigit).isEmpty = true
                · exfalso
                  simp [matchAt, List.takeWhile_cons, List.dropWhile_cons, ha, hb, hd, he] at h
                · simp [matchAt, List.takeWhile_cons, List.dropWhile_cons, hb, hd, he]
              · exfalso
                simp [matchAt, List.takeWhile_cons, List.dropWhile_cons, ha, hb, hd, hx] at h
          have htail := ih hsame
          cases r2 with
          | nil =>
            exfalso
            simp [matchAt, List.takeWhile_cons, List.dropWhile_cons, ha, hb] at h
          | cons c2 r3 => simp [hasTimePattern, htail]
        · have hb' : b.isDigit = false := by simpa using hb
          by_cases hcb : b = ':'
          · subst hcb
            rcases r2 with _ | ⟨c, r3⟩
            · exfalso
              simp [matchAt, List.takeWhile_cons, List.dropWhile_cons, ha, colon_not_digit] at h
            · by_cases hc : c.isDigit = true
              · simp [hasTimePattern, ha, hc]
              · exfalso
                have hc' : c.isDigit = false := by simpa using hc
                simp [matchAt, List.takeWhile_cons, List.dropWhile_cons, ha, colon_not_digit,
                  hc'] at h
          · exfalso
            simp [matchAt, List.takeWhile_cons, List.dropWhile_cons, ha, hb', hcb] at h
    · have ha' : a.isDigit = false := by simpa using ha
      exfalso
      simp [matchAt, List.takeWhile_cons, ha'] at h

/-- The regex finds a match in `l` exactly when `l` contains consecutive
digit, `':'`, digit. -/
theorem execTime_isSome_eq (l : List Char) : (execTime l).isSome = hasTimePattern l := by
  induction l with
  | nil => rfl
  | cons a rest ih =>
    cases hm : matchAt (a :: rest) with
    | some m =>
      have h1 := matchAt_some_pattern (a :: rest) (by simp [hm])
      simp [execTime, hm, h1]
    | none =>
      rw [show execTime (a :: rest) = execTime rest by simp [execTime, hm], ih]
      rcases rest with _ | ⟨b, _ | ⟨c, r⟩⟩
      · simp [hasTimePattern]
      · simp [hasTimePattern]
      · have hhead : (a.isDigit && (b == ':') && c.isDigit) = false := by
          by_contra hcon
          obtain ⟨h1, hb, h3⟩ : a.isDigit = true ∧ b = ':' ∧ c.isDigit = true := by
            simpa using hcon
          subst hb
          have hiss := matchAt_head_pattern a c r h1 h3
          rw [hm] at hiss
          simp at hiss
        simp [hasTimePattern, hhead]

/-! ### Claim theorems -/

/-- C1: the claim asserts that the next-fire moment computed by `schedule`,
including after the day-rollover advance, always lands on an enabled weekday.
Failing input for the code: mask enabling only Monday, `time = "08:00"`, no
offset, re-arm (`isInitial = false`) at Monday 07:00 (370800000 ms).  The
source adds the rollover day *after* the weekday-filter loop without
re-checking the mask (lines 154–160), so the timer is armed for Tuesday 08:00
(460800000 ms), whose mask entry is false: the event fires on a disabled
weekday.  The spec's step 4 ("advance by one day and re-apply weekday
filtering") and the source's own comment "adjust weekday if not selected"
state the intent the code misses. -/
theorem rearm_can_fire_on_disabled_weekday :
    schedule onlyMonday 370800000 0 noSolar evA false =
      some ({ evA with moment := some 460800000, timeout := some 90000000 }, none) ∧
    onlyMonday (weekday 370800000) = true ∧
    onlyMonday (weekday 460800000) = false :=
  ⟨by decide, by decide, by decide⟩

/-- C2 counterexample: with `now` exactly Monday 08:00:00.000 (374400000 ms)
and spec `"08:00"`, the initial schedule returns a moment *equal to* `now`
(timer delay 0): `now.isAfter(moment)` is false at equality, so no rollover
day is added, refuting "never produces a next-fire moment ≤ now".  (The
claim's second half fails too: a random offset makes the re-arm moment less
than one day after the prior fire, and a negative offset lets even the
initial moment lie in the past.) -/
theorem initial_schedule_boundary_counterexample :
    schedule allDays 374400000 0 noSolar evA true =
      some ({ evA with moment := some 374400000, timeout := some 0 }, none) := by
  decide

/-- C2 amended: for a clock-matched spec and a non-empty weekday mask,
(1) with a nonnegative applied adjustment, `schedule(event, isInitial=true)`
never produces a moment strictly before `now` (equality is possible exactly
at the boundary), and (2) with a deterministic (non-random) nonnegative
offset, re-arming with `isInitial=false` at the prior fire moment `M`
produces a moment at least one day after `M`. -/
theorem schedule_advances (mask : Fin 7 → Bool) (ev : Event) (hs ms : List Char)
    (hre : execTime ev.time.data = some (hs, ms))
    (hmask : ∃ i, mask i = true) :
    (∀ (now : Int) (r : ℚ) (solar : String → Option Int),
      0 ≤ appliedAdjMs ev.offset ev.randomoffset r →
      ∃ (ev1 : Event) (M : Int),
        schedule mask now r solar ev true = some (ev1, none) ∧ ev1.moment = some M ∧ now ≤ M) ∧
    (∀ (now0 M : Int) (r r2 : ℚ) (solar : String → Option Int) (isInitial : Bool) (ev1 : Event),
      ev.randomoffset = false → 0 ≤ ev.offset →
      schedule mask now0 r solar ev isInitial = some (ev1, none) → ev1.moment = some M →
      ∃ (ev2 : Event) (M2 : Int),
        schedule mask M r2 solar ev1 false = some (ev2, none) ∧ ev2.moment = some M2 ∧
        M + msPerDay ≤ M2) := by
  constructor
  · intro now r solar hadj
    obtain ⟨m3, k, hm3, hk6, hmk, hsched⟩ :=
      schedule_clock mask now r solar ev true hs ms hre hmask
    refine ⟨_, _, hsched, rfl, ?_⟩
    rw [field_decomp] at hm3
    have hh0 : (0:ℤ) ≤ ((digitsToNat hs : ℕ) : ℤ) := Int.ofNat_nonneg _
    have hm0 : (0:ℤ) ≤ ((digitsToNat ms : ℕ) : ℤ) := Int.ofNat_nonneg _
    simp only [dayStart, msOf, msPerDay, msPerHour, msPerMinute, msPerSecond] at hm3 ⊢
    by_cases hlt : m3 < now
    · rw [if_pos (by simp [hlt])]
      omega
    · rw [if_neg (by simp [hlt])]
      omega
  · intro now0 M r r2 solar isInitial ev1 hro hoff hsched1 hM
    obtain ⟨m3, k, hm3, hk6, hmk, hsched1'⟩ :=
      schedule_clock mask now0 r solar ev isInitial hs ms hre hmask
    rw [hsched1] at hsched1'
    simp only [Option.some.injEq, Prod.mk.injEq, and_true] at hsched1'
    subst hsched1'
    simp only [Option.some.injEq] at hM
    obtain ⟨m3', k', hm3', hk6', hmk', hsched2⟩ :=
      schedule_clock mask M r2 solar
        { ev with
          moment := some (if !isInitial || decide (m3 < now0) then m3 + msPerDay else m3),
          timeout := some ((if !isInitial || decide (m3 < now0) then m3 + msPerDay else m3) - now0) }
        false hs ms hre hmask
    simp only [Bool.not_false, Bool.true_or, if_true] at hsched2
    refine ⟨_, _, hsched2, rfl, ?_⟩
    rw [field_decomp] at hm3 hm3'
    rw [hro, appliedAdjMs_det] at hm3 hm3'
    have hh0 : (0:ℤ) ≤ ((digitsToNat hs : ℕ) : ℤ) := Int.ofNat_nonneg _
    have hm0 : (0:ℤ) ≤ ((digitsToNat ms : ℕ) : ℤ) := Int.ofNat_nonneg _
    simp only [dayStart, msOf, msPerDay, msPerHour, msPerMinute, msPerSecond] at hm3 hm3' hM ⊢
    by_cases hcond : (!isInitial || decide (m3 < now0)) = true
    · rw [if_pos hcond] at hM
      omega
    · rw [if_neg hcond] at hM
      omega

/-- C2 amended, witness: both parts at spec "08:00", all weekdays on, zero
offset, `now` = Monday 08:00:00.000 = 374400000. -/
theorem schedule_advances_witness :
    (∃ (ev1 : Event) (M : Int),
      schedule allDays 374400000 0 noSolar evA true = some (ev1, none) ∧
      ev1.moment = some M ∧ 374400000 ≤ M) ∧
    (∃ (ev2 : Event) (M2 : Int),
      schedule allDays 374400000 0 noSolar
        { evA with moment := some 374400000, timeout := some 0 } false = some (ev2, none) ∧
      ev2.moment = some M2 ∧ 374400000 + msPerDay ≤ M2) :=
  ⟨(schedule_advances allDays evA ['0','8'] ['0','0'] (by decide) ⟨1, by decide⟩).1
      374400000 0 noSolar (by decide),
   (schedule_advances allDays evA ['0','8'] ['0','0'] (by decide) ⟨1, by decide⟩).2
      374400000 374400000 0 0 noSolar true _ rfl (by decide) (by decide) rfl⟩

/-- C3 counterexample: the claim demands an error status and no armed timer
whenever resolution fails, "including an event that had a previously computed
moment".  Failing that: `evStale` has the unresolvable spec `"junk"` but a
stale moment (Monday 10:00 = 381600000) from an earlier pass; `schedule`
finds `event.moment` truthy, silently reuses the stale moment, publishes no
error status, and arms a timer for Tuesday 10:00 (468000000). -/
theorem stale_moment_bypasses_error_status :
    schedule allDays 370800000 0 noSolar evStale false =
      some ({ evStale with moment := some 468000000, timeout := some 97200000 }, none) := by
  decide

/-- C3 amended: when both the regex and the solar lookup fail *and the event
has no previously computed moment*, `schedule` publishes the red
"Invalid time" status and returns the event unchanged: no timer is armed
(`timeout` untouched) and the event stays unscheduled (`moment` stays
`none`) until the next reconfiguration/bootstrap. -/
theorem resolution_failure_fresh_event (weekdays : Fin 7 → Bool) (now : Int) (r : ℚ)
    (solar : String → Option Int) (ev : Event) (isInitial : Bool)
    (hre : execTime ev.time.data = none) (hsolar : solar ev.time = none)
    (hm : ev.moment = none) :
    schedule weekdays now r solar ev isInitial = some (ev, some (invalidStatus ev.time)) := by
  simp [schedule, resolveMoment, hre, hsolar, hm, Option.or]

/-- C3 amended, witness: the fresh event `evBad` with spec "junk". -/
theorem resolution_failure_fresh_event_witness :
    schedule allDays 370800000 0 noSolar evBad true =
      some (evBad, some (invalidStatus "junk")) :=
  resolution_failure_fresh_event allDays 370800000 0 noSolar evBad true (by decide) rfl rfl

/-- C4 counterexample: the claim says a string is accepted as a clock spec
exactly when it matches HH:MM with hours 0–23 and minutes 0–59, and that the
result has sub-seconds zeroed.  But the unanchored regex `(\d+):(\d+)`
accepts `"99:99"` (hour 99 bubbles into later days: resolution at `now = 0`
gives 362340000 = day 4, 04:39), and the millisecond field of `now` survives
both resolution and `seconds(0)` (123 ms here). -/
theorem clock_acceptance_counterexample :
    specClockAccepts "99:99" = false ∧
    resolveMoment noSolar 0 "99:99" = some 362340000 ∧
    (resolveMoment noSolar 374400123 "08:00").map zeroSeconds = some 374400123 ∧
    msOf 374400123 = 123 :=
  ⟨by decide, by decide, by decide, by decide⟩

/-- C4 amended: time resolution accepts a string as a clock spec exactly when
it contains a digit, `':'`, digit substring (values unbounded, overflow
bubbling into hours/days); on acceptance it sets hour then minute on today's
`now`, and the subsequent `seconds(0)` zeroes the seconds but preserves the
millisecond field of `now`; any other string is looked up as a solar-event
name, and resolution fails (InvalidTimeSpec) exactly when that lookup returns
nothing. -/
theorem resolveMoment_characterization (s : String) (now : Int)
    (solar : String → Option Int) :
    ((execTime s.data).isSome = hasTimePattern s.data) ∧
    (∀ hs ms, execTime s.data = some (hs, ms) →
      resolveMoment solar now s =
        some (setMinute (digitsToNat ms) (setHour (digitsToNat hs) now)) ∧
      secondOf (zeroSeconds (setMinute (digitsToNat ms) (setHour (digitsToNat hs) now))) = 0 ∧
      msOf (zeroSeconds (setMinute (digitsToNat ms) (setHour (digitsToNat hs) now))) =
        msOf now) ∧
    (execTime s.data = none → resolveMoment solar now s = solar s) := by
  refine ⟨execTime_isSome_eq s.data, ?_, ?_⟩
  · intro hs ms hre
    exact ⟨by simp [resolveMoment, hre], secondOf_zeroSeconds _, msOf_zeroSeconds_set _ _ _⟩
  · intro hre
    simp [resolveMoment, hre]

/-- C4 amended, witness: "08:00" at a `now` with 123 ms, and "junk" falling
through to the (empty) solar table. -/
theorem resolveMoment_characterization_witness :
    ((execTime "08:00".data).isSome = hasTimePattern "08:00".data) ∧
    (resolveMoment noSolar 374400123 "08:00" =
        some (setMinute (digitsToNat ['0','0']) (setHour (digitsToNat ['0','8']) 374400123)) ∧
      secondOf (zeroSeconds (setMinute (digitsToNat ['0','0'])
        (setHour (digitsToNat ['0','8']) 374400123))) = 0 ∧
      msOf (zeroSeconds (setMinute (digitsToNat ['0','0'])
        (setHour (digitsToNat ['0','8']) 374400123))) = msOf 374400123) ∧
    (resolveMoment noSolar 0 "junk" = noSolar "junk") :=
  ⟨(resolveMoment_characterization "08:00" 374400123 noSolar).1,
   (resolveMoment_characterization "08:00" 374400123 noSolar).2.1 ['0','8'] ['0','0'] (by decide),
   (resolveMoment_characterization "junk" 0 noSolar).2.2 (by decide)⟩

/-- C5: `bootstrap` with an all-false weekday mask transitions to Suspended
regardless of the `suspended` flag: it takes the `suspend()` branch, which
clears both events' timers and publishes the grey suspended status. -/
theorem bootstrap_all_false_suspends (now : Int) (rOn rOff : ℚ)
    (solar : String → Option Int) (st : NodeState)
    (h : ∀ i, st.weekdays i = false) :
    bootstrap now rOn rOff solar st = some (suspend st) ∧
    (suspend st).1.onEvent.timeout = none ∧
    (suspend st).1.offEvent.timeout = none ∧
    (suspend st).2 = suspendStatus st.weekdays := by
  refine ⟨?_, rfl, rfl, rfl⟩
  simp [bootstrap, h]

/-- C5 witness: `stNoDays` has `suspended = false` and the all-false mask. -/
theorem bootstrap_all_false_suspends_witness :
    (∀ i, stNoDays.weekdays i = false) ∧
    (bootstrap 0 0 0 noSolar stNoDays = some (suspend stNoDays) ∧
      (suspend stNoDays).1.onEvent.timeout = none ∧
      (suspend stNoDays).1.offEvent.timeout = none ∧
      (suspend stNoDays).2 = suspendStatus stNoDays.weekdays) :=
  ⟨by decide, bootstrap_all_false_suspends 0 0 0 noSolar stNoDays (by decide)⟩

/-- C6: a reconfiguration record that sets one field triggers no rebootstrap
when the value equals the current one, and exactly one rebootstrap for the
whole message when it differs (the handler or-accumulates
`previous !== next` over all fields and calls `bootstrap()` at most once). -/
theorem single_field_reconfig_rebootstrap_iff_changed (st : NodeState) (f : FieldId)
    (v : FieldVal) (h : valTypeOk f v) :
    (onInput st (.patch (mkPatch f v))).map InOutcome.rebootstraps =
      some (if readField st f = v then 0 else 1) := by
  cases f <;> cases v <;>
    first
      | exact h.elim
      | simp [onInput, applyPatch, applyField, mkPatch, readField, ite_not]

/-- C6 witness: re-sending the current `ontime` is a no-op; a new `ontime`
rebootstraps once. -/
theorem single_field_reconfig_witness :
    (onInput stOk (.patch (mkPatch .ontime (.s "08:00")))).map InOutcome.rebootstraps =
      some 0 ∧
    (onInput stOk (.patch (mkPatch .ontime (.s "09:30")))).map InOutcome.rebootstraps =
      some 1 := by
  constructor
  · have h := single_field_reconfig_rebootstrap_iff_changed stOk .ontime (.s "08:00") trivial
    simpa [stOk, evA, readField] using h
  · have h := single_field_reconfig_rebootstrap_iff_changed stOk .ontime (.s "09:30") trivial
    simpa [stOk, evA, readField] using h

/-- C7: with a nonzero offset, the applied adjustment equals `offset` exactly
when `randomoffset` is false; with `randomoffset` true and the random draw
`r ∈ [0, 1)`, the adjustment lies in `[0, offset)` for positive offsets and
in `(offset, 0]` for negative ones (sign preserved, magnitude strictly
below `|offset|`). -/
theorem offset_adjustment_bounds (offset : Int) (randomoffset : Bool) (r : ℚ)
    (_hoff : offset ≠ 0) (h0 : 0 ≤ r) (h1 : r < 1) :
    (randomoffset = false → adjustment offset randomoffset r = offset) ∧
    (randomoffset = true →
      (0 < offset → 0 ≤ adjustment offset randomoffset r ∧
        adjustment offset randomoffset r < (offset : ℚ)) ∧
      (offset < 0 → (offset : ℚ) < adjustment offset randomoffset r ∧
        adjustment offset randomoffset r ≤ 0)) := by
  constructor
  · intro h; simp [adjustment, h]
  · intro h
    subst h
    simp only [adjustment, if_true]
    constructor
    · intro hp
      have hp' : (0:ℚ) < (offset:ℚ) := by exact_mod_cast hp
      refine ⟨mul_nonneg (le_of_lt hp') h0, ?_⟩
      calc (offset:ℚ) * r < (offset:ℚ) * 1 := mul_lt_mul_of_pos_left h1 hp'
        _ = (offset:ℚ) := mul_one _
    · intro hn
      have hn' : (offset:ℚ) < 0 := by exact_mod_cast hn
      constructor
      · calc (offset:ℚ) = (offset:ℚ) * 1 := (mul_one _).symm
          _ < (offset:ℚ) * r := mul_lt_mul_of_neg_left h1 hn'
      · exact mul_nonpos_iff.mpr (Or.inr ⟨le_of_lt hn', h0⟩)

/-- C7 witness: offset 5 deterministic, and offset 4 with draw 0. -/
theorem offset_adjustment_bounds_witness :
    adjustment 5 false 0 = 5 ∧
    (0 ≤ adjustment 4 true 0 ∧ adjustment 4 true 0 < (4 : ℚ)) :=
  ⟨(offset_adjustment_bounds 5 false 0 (by decide) le_rfl zero_lt_one).1 rfl,
   ((offset_adjustment_bounds 4 true 0 (by decide) le_rfl zero_lt_one).2 rfl).1 (by decide)⟩

/-- C8: with at least one enabled weekday, the weekday-filter loop terminates
within 7 iterations from any starting moment: fuel 7 always suffices, at most
6 one-day advances happen, and the result lands on an enabled weekday. -/
theorem weekday_filter_terminates (mask : Fin 7 → Bool) (t : Int)
    (hmask : ∃ i, mask i = true) :
    ∃ (t' : Int) (k : ℕ), weekdayLoop mask 7 t = some t' ∧ t' = t + k * msPerDay ∧
      k ≤ 6 ∧ mask (weekday t') = true := by
  obtain ⟨j, hj6, hjm⟩ := mask_reachable mask t hmask
  obtain ⟨t', k, h1, h2, h3, h4⟩ := weekdayLoop_first mask 7 t j (by omega) hjm
  exact ⟨t', k, h1, h2, by omega, h4⟩

/-- C8 witness: only-Monday mask starting from a Monday moment. -/
theorem weekday_filter_terminates_witness :
    ∃ (t' : Int) (k : ℕ), weekdayLoop onlyMonday 7 374400000 = some t' ∧
      t' = 374400000 + k * msPerDay ∧ k ≤ 6 ∧ onlyMonday (weekday t') = true :=
  weekday_filter_terminates onlyMonday 374400000 ⟨1, by decide⟩

/-- C9 counterexample: the claim quantifies over *every* scheduler state, but
in `stBad` (not suspended, OFF event never resolved so
`offEvent.moment = none`) a manual `"on"` payload makes `send` throw while
interpolating `event.inverse.moment.format(fmt)` into the status text: the
handler crashes (`none`) and no manual-mode status is published. -/
theorem manual_fire_crashes_without_inverse_moment :
    onInput stBad .onCmd = none := by decide

/-- C9 amended: provided the node is suspended or the inverse event's moment
is defined, a manual `"on"`/`"off"` payload emits exactly that event's
`{topic, payload}` message and publishes a blue manual-mode status, while the
whole node state — both events' timers and moments and every configuration
field — is returned unchanged, with no rebootstrap. -/
theorem manual_fire_frame (st : NodeState) :
    (st.suspended = true ∨ st.offEvent.moment.isSome = true →
      ∃ stat : Status, onInput st .onCmd =
          some ⟨st, [⟨st.onEvent.topic, st.onEvent.payload⟩], some stat, 0⟩ ∧
        stat.fill = .blue) ∧
    (st.suspended = true ∨ st.onEvent.moment.isSome = true →
      ∃ stat : Status, onInput st .offCmd =
          some ⟨st, [⟨st.offEvent.topic, st.offEvent.payload⟩], some stat, 0⟩ ∧
        stat.fill = .blue) := by
  constructor
  · intro hOn
    cases hs : st.suspended with
    | true =>
      exact ⟨⟨.blue, st.onEvent.shape, st.onEvent.name ++ " manual" ++ " - scheduling suspended"⟩,
        by simp [onInput, send, hs], rfl⟩
    | false =>
      obtain ⟨mOff, hmOff⟩ := Option.isSome_iff_exists.mp (hOn.resolve_left (by simp [hs]))
      exact ⟨⟨.blue, st.onEvent.shape,
          st.onEvent.name ++ " manual" ++ (" until " ++ fmtMoment mOff)⟩,
        by simp [onInput, send, hs, hmOff], rfl⟩
  · intro hOff
    cases hs : st.suspended with
    | true =>
      exact ⟨⟨.blue, st.offEvent.shape, st.offEvent.name ++ " manual" ++ " - scheduling suspended"⟩,
        by simp [onInput, send, hs], rfl⟩
    | false =>
      obtain ⟨mOn, hmOn⟩ := Option.isSome_iff_exists.mp (hOff.resolve_left (by simp [hs]))
      exact ⟨⟨.blue, st.offEvent.shape,
          st.offEvent.name ++ " manual" ++ (" until " ++ fmtMoment mOn)⟩,
        by simp [onInput, send, hs, hmOn], rfl⟩

/-- C9 amended, witness: an `"on"` request in the fully-resolved active state
`stOk`, and an `"off"` request in the mixed state `stBad` (not suspended, ON
moment defined, OFF moment undefined) — the latter is covered because only
the fired event's inverse moment is required. -/
theorem manual_fire_frame_witness :
    (∃ stat : Status, onInput stOk .onCmd =
        some ⟨stOk, [⟨stOk.onEvent.topic, stOk.onEvent.payload⟩], some stat, 0⟩ ∧
      stat.fill = .blue) ∧
    (∃ stat : Status, onInput stBad .offCmd =
        some ⟨stBad, [⟨stBad.offEvent.topic, stBad.offEvent.payload⟩], some stat, 0⟩ ∧
      stat.fill = .blue) :=
  ⟨(manual_fire_frame stOk).1 (Or.inr (by decide)),
   (manual_fire_frame stBad).2 (Or.inr (by decide))⟩

/-- C10: whenever the node is not suspended and the inverse event's moment is
undefined, `send` fails while building the status text (the undefined
`inverse.moment` cannot be formatted) instead of completing normally. -/
theorem send_requires_inverse_moment (ev inv : Event) (manual : Bool)
    (hinv : inv.moment = none) :
    send false ev inv manual = none := by
  simp [send, hinv]

/-- C10 witness: `evBad` carries no moment. -/
theorem send_requires_inverse_moment_witness :
    send false evA evBad true = none :=
  send_requires_inverse_moment evA evBad true rfl

end Schedex
